import Mathlib

/-!
Shallow embedding of `src/Source/Services/Presence/presence_writer.cpp`
(the background presence heartbeat writer of the xbox-live-api repository).

The C++ class `presence_writer` keeps
  * `m_writerInProgress : bool`        -- "running" lifecycle flag,
  * `m_heartBeatDelayInMins : int`     -- signed countdown to the next flush,
  * `m_isCallInProgress : atomic bool` -- single-flight guard,
  * `m_presenceServices : map<string_t, shared_ptr<presence_service_impl>>`,
  * a periodic timer (`m_timer` on WinRT / the `m_timerComplete` sleep loop).

The embedding below is sequential: each public operation of the class is a
pure function on a `presence_writer` state.  The network call
`set_presence_helper` is the opaque collaborator; its per-user outcomes are
supplied as an input `resultOf : UserId -> WriteResult`.  The two timer
backends are both modelled by the single boolean `m_timerAlive` (the WinRT
timer is alive between `CreatePeriodicTimer` and `Cancel`; the sleep loop is
alive between `m_timerComplete := false` and `m_timerComplete := true`).
User identifiers (`string_t` xbox user ids) are modelled as `Nat`: the code
uses them only as map keys.
-/

/-- User identifier: the code uses `string_t` xbox user ids purely as map
keys, so an arbitrary decidable-equality type suffices. -/
abbrev UserId := Nat

/-- Outcome of one per-user remote write, `xbox_live_result<uint32_t>`:
either success carrying the server's heart-beat interval hint (`payload()`),
or an error (`err()` set). -/
inductive WriteResult where
  | ok (heartBeatHint : Nat)
  | err
deriving DecidableEq, Repr

/-- Observable side effects of the operations: the fan-out presence writes
issued by a flush cycle (line 195, `set_presence_helper(true, ...)`), and the
best-effort inactive write issued on deregistration (line 171,
`set_presence(false)`; `writeFailed` records whether that call threw). -/
inductive Event where
  | setActiveWrite (id : UserId)
  | setInactiveWrite (id : UserId) (writeFailed : Bool)
deriving DecidableEq, Repr

/-- Result communicated by `start_writer` for a registration attempt: the
code either inserts the user (line 92) or logs "already exist" and returns
early (line 98). -/
inductive RegisterResult where
  | added
  | already_present
deriving DecidableEq, Repr

/-- State of the C++ `presence_writer` object.  `m_timerAlive` stands for
both timer backends: true iff the periodic timer would keep firing. -/
structure presence_writer where
  m_writerInProgress : Bool
  m_heartBeatDelayInMins : Int
  m_isCallInProgress : Bool
  m_presenceServices : List UserId
  m_timerAlive : Bool
deriving DecidableEq, Repr

/-- Modelled from the spec: the Default Interval Constant
`s_defaultHeartBeatDelayInMins` is declared in `presence_internal.h`, which
is not among the repository files; the spec fixes only that it is "a fixed
fallback duration".  Its concrete value is irrelevant to every claim; we fix
it as 5 minutes. -/
def s_defaultHeartBeatDelayInMins : Int := 5

/-- Constructor `presence_writer::presence_writer()` (lines 26-31):
`m_writerInProgress(false), m_heartBeatDelayInMins(0),
m_isCallInProgress(false)`, empty service map, no timer. -/
def initWriter : presence_writer :=
  { m_writerInProgress := false
    m_heartBeatDelayInMins := 0
    m_isCallInProgress := false
    m_presenceServices := []
    m_timerAlive := false }

namespace presence_writer

/-- Compare-exchange on the single-flight guard (line 183,
`m_isCallInProgress.compare_exchange_strong(expected=false, true)`): returns
whether the flush may begin, and the state with the flag taken. -/
def try_begin_flush (s : presence_writer) : Bool × presence_writer :=
  if s.m_isCallInProgress then
    (false, s)
  else
    (true, { s with m_isCallInProgress := true })

/-- Next countdown derived from one write result (lines 209-218): on success
adopt the payload hint, on error fall back to the default interval. -/
def nextDelay (r : WriteResult) : Int :=
  match r with
  | WriteResult.ok h => (h : Int)
  | WriteResult.err => s_defaultHeartBeatDelayInMins

/-- Primitive steps performed by the `when_all(...).then(...)` continuation
body (lines 200-221): clearing the guard and storing a new countdown. -/
inductive FlushAction where
  | clearGuard
  | setCountdown (v : Int)
deriving DecidableEq, Repr

/-- Effect of one primitive continuation step on the state. -/
def applyFlushAction (s : presence_writer) : FlushAction → presence_writer
  | FlushAction.clearGuard => { s with m_isCallInProgress := false }
  | FlushAction.setCountdown v => { s with m_heartBeatDelayInMins := v }

/-- Ordered trace of the continuation body registered at lines 200-221, for
the vector of results it awaits: first `m_isCallInProgress.store(false)`
(line 204), then the countdown update taken from the LAST result of that
vector (`results.end() - 1`, line 208).  `resultsSoFar` is never empty in
the code (a task is pushed before each continuation is registered); the
empty case is dead code kept for totality. -/
def continuationActions (resultsSoFar : List WriteResult) : List FlushAction :=
  match resultsSoFar.getLast? with
  | some r => [FlushAction.clearGuard, FlushAction.setCountdown (nextDelay r)]
  | none => [FlushAction.clearGuard]

/-- State effect of one continuation: its action trace applied in order. -/
def flushContinuation (resultsSoFar : List WriteResult) (s : presence_writer) :
    presence_writer :=
  (continuationActions resultsSoFar).foldl applyFlushAction s

/-- The loop at lines 190-222 registers, at its k-th iteration, a
`when_all` continuation over the first k+1 write tasks.  A `when_all` over a
larger set of the same tasks completes no earlier than one over a subset, so
the continuations complete in iteration order; this function runs them in
that order. -/
def runFlushContinuations (results : List WriteResult) (s : presence_writer) :
    presence_writer :=
  (List.range results.length).foldl
    (fun acc k => flushContinuation (results.take (k + 1)) acc) s

/-- Flush executor `presence_writer::set_active_in_title` (lines 179-229):
try to take the single-flight guard; on failure just log and return (lines
224-227); on success iterate the service map, issue one
`set_presence_helper(true, ...)` write per user, and register the
result-processing continuations.  `resultOf` supplies the opaque network
outcome for each user.  Returns the new state and the writes issued. -/
def set_active_in_title (resultOf : UserId → WriteResult)
    (s : presence_writer) : presence_writer × List Event :=
  let began := s.try_begin_flush
  if began.1 then
    let snapshot := began.2.m_presenceServices
    let results := snapshot.map resultOf
    (runFlushContinuations results began.2, snapshot.map Event.setActiveWrite)
  else
    (s, [])

/-- Timer callback `presence_writer::handle_timer_trigger` (lines 118-129):
decrement the countdown, return if it is still positive, otherwise run the
flush executor. -/
def handle_timer_trigger (resultOf : UserId → WriteResult)
    (s : presence_writer) : presence_writer × List Event :=
  let s1 := { s with m_heartBeatDelayInMins := s.m_heartBeatDelayInMins - 1 }
  if s1.m_heartBeatDelayInMins > 0 then
    (s1, [])
  else
    set_active_in_title resultOf s1

/-- Registration `presence_writer::start_writer` (lines 73-116): under the
lock, flip `m_writerInProgress` to true remembering whether it was false
(lines 82-86); if the user is already in the map, log and return early
(lines 96-99); otherwise insert the user (line 92; the first presence write
is skipped, line 94 comment — no `Event` is emitted).  After the lock, if
the flag was flipped, spawn the periodic timer task (lines 103-115). -/
def start_writer (id : UserId) (s : presence_writer) :
    presence_writer × RegisterResult × List Event :=
  let startW := !s.m_writerInProgress
  let s1 := { s with m_writerInProgress := true }
  if id ∈ s1.m_presenceServices then
    (s1, RegisterResult.already_present, [])
  else
    let s2 := { s1 with m_presenceServices := s1.m_presenceServices ++ [id] }
    if startW then
      ({ s2 with m_timerAlive := true }, RegisterResult.added, [])
    else
      (s2, RegisterResult.added, [])

/-- Best-effort inactive write `presence_writer::set_inactive_in_title`
(lines 163-177): `set_presence(false)` inside try/catch; a throw
(`writeFails`) is caught and logged, so the call always completes and only
the recorded event differs. -/
def set_inactive_in_title (id : UserId) (writeFails : Bool) : List Event :=
  [Event.setInactiveWrite id writeFails]

/-- Deregistration `presence_writer::stop_writer` (lines 131-161): under the
lock, if the writer is in progress: when the user is found, issue the
inactive write and erase the entry (lines 139-144); when the map became
empty, clear `m_writerInProgress` and zero the countdown (lines 146-150);
then — unconditionally, lines 152-158 — cancel the WinRT timer /
set `m_timerComplete`, i.e. kill the timer.  `writeFails` says whether the
best-effort inactive write throws; it never changes the state. -/
def stop_writer (id : UserId) (writeFails : Bool) (s : presence_writer) :
    presence_writer × List Event :=
  if s.m_writerInProgress then
    let found := id ∈ s.m_presenceServices
    let evs := if found then set_inactive_in_title id writeFails else []
    let s1 :=
      if found then
        { s with m_presenceServices := s.m_presenceServices.erase id }
      else s
    let s2 :=
      if s1.m_presenceServices.isEmpty then
        { s1 with m_writerInProgress := false, m_heartBeatDelayInMins := 0 }
      else s1
    ({ s2 with m_timerAlive := false }, evs)
  else
    (s, [])

end presence_writer

/-- Client-visible operations driving the writer: a registration, a
deregistration (with the fate of its best-effort inactive write), or one
firing of the periodic timer (with the opaque network outcomes of the cycle
it may start).  The timer fires only while it is alive. -/
inductive Op where
  | register (id : UserId)
  | deregister (id : UserId) (writeFails : Bool)
  | tick (resultOf : UserId → WriteResult)

/-- One operation applied to the state. -/
def applyOp (s : presence_writer) : Op → presence_writer
  | Op.register id => (s.start_writer id).1
  | Op.deregister id f => (s.stop_writer id f).1
  | Op.tick r => if s.m_timerAlive then (s.handle_timer_trigger r).1 else s

/-- State reached from a freshly constructed writer by a sequence of
operations. -/
def runOps (ops : List Op) : presence_writer :=
  ops.foldl applyOp initWriter

/-- Lifecycle biconditional of the spec: the running flag is set iff the
registration table is non-empty. -/
def runningIffNonempty (s : presence_writer) : Prop :=
  s.m_writerInProgress = true ↔ s.m_presenceServices ≠ []

instance (s : presence_writer) : Decidable (runningIffNonempty s) := by
  unfold runningIffNonempty
  infer_instance

/-- Reachability invariant of the writer: the lifecycle biconditional, the
timer only alive while users are registered, and no duplicate keys (the C++
map cannot hold two entries for one user id). -/
def WriterInv (s : presence_writer) : Prop :=
  runningIffNonempty s ∧
  (s.m_timerAlive = true → s.m_presenceServices ≠ []) ∧
  s.m_presenceServices.Nodup

namespace presence_writer

theorem applyFlushAction_frame (s : presence_writer) (a : FlushAction) :
    (s.applyFlushAction a).m_presenceServices = s.m_presenceServices ∧
    (s.applyFlushAction a).m_writerInProgress = s.m_writerInProgress ∧
    (s.applyFlushAction a).m_timerAlive = s.m_timerAlive := by
  cases a <;> simp [applyFlushAction]

theorem flushContinuation_frame (res : List WriteResult) (s : presence_writer) :
    (flushContinuation res s).m_presenceServices = s.m_presenceServices ∧
    (flushContinuation res s).m_writerInProgress = s.m_writerInProgress ∧
    (flushContinuation res s).m_timerAlive = s.m_timerAlive := by
  unfold flushContinuation continuationActions
  cases res.getLast? <;> simp [applyFlushAction]

theorem foldl_flushContinuation_frame (l : List Nat)
    (g : Nat → List WriteResult) (s : presence_writer) :
    (l.foldl (fun acc k => flushContinuation (g k) acc) s).m_presenceServices
        = s.m_presenceServices ∧
    (l.foldl (fun acc k => flushContinuation (g k) acc) s).m_writerInProgress
        = s.m_writerInProgress ∧
    (l.foldl (fun acc k => flushContinuation (g k) acc) s).m_timerAlive
        = s.m_timerAlive := by
  induction l generalizing s with
  | nil => simp
  | cons x xs ih =>
      simp only [List.foldl_cons]
      have hx := flushContinuation_frame (g x) s
      have hs := ih (flushContinuation (g x) s)
      exact ⟨hs.1.trans hx.1, hs.2.1.trans hx.2.1, hs.2.2.trans hx.2.2⟩

theorem runFlushContinuations_frame (results : List WriteResult)
    (s : presence_writer) :
    (runFlushContinuations results s).m_presenceServices = s.m_presenceServices ∧
    (runFlushContinuations results s).m_writerInProgress = s.m_writerInProgress ∧
    (runFlushContinuations results s).m_timerAlive = s.m_timerAlive := by
  unfold runFlushContinuations
  exact foldl_flushContinuation_frame (List.range results.length)
    (fun k => results.take (k + 1)) s

theorem flushContinuation_concat (ys : List WriteResult) (r : WriteResult)
    (s : presence_writer) :
    flushContinuation (ys ++ [r]) s =
      { s with m_isCallInProgress := false,
               m_heartBeatDelayInMins := nextDelay r } := by
  unfold flushContinuation continuationActions
  rw [List.getLast?_concat ys]
  simp [applyFlushAction]

theorem runFlushContinuations_concat (ys : List WriteResult) (r : WriteResult)
    (s : presence_writer) :
    (runFlushContinuations (ys ++ [r]) s).m_isCallInProgress = false ∧
    (runFlushContinuations (ys ++ [r]) s).m_heartBeatDelayInMins = nextDelay r := by
  unfold runFlushContinuations
  have hlen : (ys ++ [r]).length = ys.length + 1 := by simp
  rw [hlen, List.range_succ, List.foldl_append]
  have htake : (ys ++ [r]).take (ys.length + 1) = ys ++ [r] := by
    apply List.take_of_length_le
    simp
  simp only [List.foldl_cons, List.foldl_nil, htake]
  rw [flushContinuation_concat]
  exact ⟨rfl, rfl⟩

end presence_writer

namespace presence_writer

theorem set_active_in_title_spec (resultOf : UserId → WriteResult)
    (s : presence_writer) (h : s.m_isCallInProgress = false)
    (ids : List UserId) (u : UserId)
    (hsnap : s.m_presenceServices = ids ++ [u]) :
    (s.set_active_in_title resultOf).1.m_isCallInProgress = false ∧
    (s.set_active_in_title resultOf).1.m_heartBeatDelayInMins
        = nextDelay (resultOf u) ∧
    (s.set_active_in_title resultOf).2
        = (ids ++ [u]).map Event.setActiveWrite := by
  simp only [set_active_in_title, try_begin_flush, h, Bool.false_eq_true,
    if_false, if_true, hsnap]
  rw [List.map_append, List.map_cons, List.map_nil]
  refine ⟨(runFlushContinuations_concat _ _ _).1,
    (runFlushContinuations_concat _ _ _).2, ?_⟩
  simp

theorem set_active_in_title_frame (resultOf : UserId → WriteResult)
    (s : presence_writer) :
    (s.set_active_in_title resultOf).1.m_presenceServices
        = s.m_presenceServices ∧
    (s.set_active_in_title resultOf).1.m_writerInProgress
        = s.m_writerInProgress ∧
    (s.set_active_in_title resultOf).1.m_timerAlive = s.m_timerAlive := by
  by_cases hc : s.m_isCallInProgress
  · simp [set_active_in_title, try_begin_flush, hc]
  · have hframe := runFlushContinuations_frame
      (s.m_presenceServices.map resultOf) { s with m_isCallInProgress := true }
    simp only [set_active_in_title, try_begin_flush, hc] at *
    simpa using hframe

theorem handle_timer_trigger_frame (resultOf : UserId → WriteResult)
    (s : presence_writer) :
    (s.handle_timer_trigger resultOf).1.m_presenceServices
        = s.m_presenceServices ∧
    (s.handle_timer_trigger resultOf).1.m_writerInProgress
        = s.m_writerInProgress ∧
    (s.handle_timer_trigger resultOf).1.m_timerAlive = s.m_timerAlive := by
  unfold handle_timer_trigger
  by_cases hd : s.m_heartBeatDelayInMins - 1 > 0
  · simp [hd]
  · have hframe := set_active_in_title_frame resultOf
      { s with m_heartBeatDelayInMins := s.m_heartBeatDelayInMins - 1 }
    simp only [hd] at *
    simpa using hframe

theorem start_writer_inv (id : UserId) (s : presence_writer)
    (h : WriterInv s) : WriterInv (s.start_writer id).1 := by
  obtain ⟨hrun, htimer, hnodup⟩ := h
  by_cases hmem : id ∈ s.m_presenceServices
  · have hne : s.m_presenceServices ≠ [] := by
      intro hnil
      rw [hnil] at hmem
      exact absurd hmem (List.not_mem_nil id)
    refine ⟨?_, ?_, ?_⟩ <;>
      simp [start_writer, hmem, runningIffNonempty, hne, htimer, hnodup]
  · by_cases hw : s.m_writerInProgress <;>
      refine ⟨?_, ?_, ?_⟩ <;>
      simp [start_writer, hmem, hw, runningIffNonempty, List.nodup_append,
        hnodup]

theorem stop_writer_inv (id : UserId) (f : Bool) (s : presence_writer)
    (h : WriterInv s) : WriterInv (s.stop_writer id f).1 := by
  obtain ⟨hrun, htimer, hnodup⟩ := h
  by_cases hw : s.m_writerInProgress
  · by_cases hmem : id ∈ s.m_presenceServices
    · by_cases hemp : (s.m_presenceServices.erase id).isEmpty
      · refine ⟨?_, ?_, ?_⟩ <;>
          simp_all [stop_writer, runningIffNonempty, List.Nodup.erase,
            List.isEmpty_iff]
      · refine ⟨?_, ?_, ?_⟩ <;>
          simp_all [stop_writer, runningIffNonempty, List.Nodup.erase,
            List.isEmpty_iff]
    · have hne : s.m_presenceServices ≠ [] := hrun.mp hw
      refine ⟨?_, ?_, ?_⟩ <;>
        simp_all [stop_writer, runningIffNonempty, List.isEmpty_iff]
  · refine ⟨?_, ?_, ?_⟩ <;> simp_all [stop_writer, runningIffNonempty]

end presence_writer

theorem applyOp_inv (s : presence_writer) (op : Op) (h : WriterInv s) :
    WriterInv (applyOp s op) := by
  cases op with
  | register id => exact presence_writer.start_writer_inv id s h
  | deregister id f => exact presence_writer.stop_writer_inv id f s h
  | tick r =>
      unfold applyOp
      by_cases ht : s.m_timerAlive
      · obtain ⟨hrun, htimer, hnodup⟩ := h
        have hframe := presence_writer.handle_timer_trigger_frame r s
        simp only [ht, if_true]
        refine ⟨?_, ?_, ?_⟩ <;>
          simp_all [runningIffNonempty, hframe.1, hframe.2.1, hframe.2.2]
      · simpa [ht] using h

theorem runOps_inv (ops : List Op) : WriterInv (runOps ops) := by
  have hstep : ∀ (l : List Op) (s : presence_writer),
      WriterInv s → WriterInv (l.foldl applyOp s) := by
    intro l
    induction l with
    | nil => intro s h; exact h
    | cons x xs ih => intro s h; exact ih _ (applyOp_inv s x h)
  have hinit : WriterInv initWriter := by
    unfold WriterInv runningIffNonempty initWriter
    simp
  exact hstep ops initWriter hinit

/-- Bicondition preservation by registration: `start_writer` keeps the
running flag set exactly when the table is non-empty. -/
theorem start_writer_bicond (id : UserId) (s : presence_writer)
    (_h : runningIffNonempty s) : runningIffNonempty (s.start_writer id).1 := by
  by_cases hmem : id ∈ s.m_presenceServices
  · have hne : s.m_presenceServices ≠ [] := by
      intro hnil
      rw [hnil] at hmem
      exact absurd hmem (List.not_mem_nil id)
    simp [presence_writer.start_writer, hmem, runningIffNonempty, hne]
  · by_cases hw : s.m_writerInProgress <;>
      simp [presence_writer.start_writer, hmem, hw, runningIffNonempty]

/-- Bicondition preservation by deregistration: `stop_writer` clears the
running flag exactly when it empties the table. -/
theorem stop_writer_bicond (id : UserId) (f : Bool) (s : presence_writer)
    (h : runningIffNonempty s) : runningIffNonempty (s.stop_writer id f).1 := by
  by_cases hw : s.m_writerInProgress
  · by_cases hmem : id ∈ s.m_presenceServices
    · by_cases hemp : (s.m_presenceServices.erase id).isEmpty <;>
        simp_all [presence_writer.stop_writer, runningIffNonempty,
          List.isEmpty_iff]
    · have hne : s.m_presenceServices ≠ [] := h.mp hw
      simp_all [presence_writer.stop_writer, runningIffNonempty,
        List.isEmpty_iff]
  · simp_all [presence_writer.stop_writer, runningIffNonempty]

/-- C1: beginning a flush atomically flips the in-flight flag from false to
true (`compare_exchange_strong`), and a flush trigger arriving while the
flag is already true leaves the state untouched and produces no write and no
error — the cycle is dropped, not queued. -/
theorem C1_single_flight_guard (s : presence_writer)
    (resultOf : UserId → WriteResult) :
    ((s.try_begin_flush).1 = true ↔ s.m_isCallInProgress = false) ∧
    ((s.try_begin_flush).1 = true →
      (s.try_begin_flush).2.m_isCallInProgress = true) ∧
    (s.m_isCallInProgress = true →
      s.set_active_in_title resultOf = (s, [])) := by
  by_cases hc : s.m_isCallInProgress <;>
    simp [presence_writer.set_active_in_title, presence_writer.try_begin_flush,
      hc]

/-- C3: the countdown set by a completed flush cycle is derived from the
designated last per-user result in snapshot order: a success with hint `h`
makes the next countdown `h`, an error makes it the default interval. -/
theorem C3_interval_from_last_result (resultOf : UserId → WriteResult)
    (s : presence_writer) (ids : List UserId) (u : UserId)
    (hguard : s.m_isCallInProgress = false)
    (hsnap : s.m_presenceServices = ids ++ [u]) :
    (∀ hint : Nat, resultOf u = WriteResult.ok hint →
      (s.set_active_in_title resultOf).1.m_heartBeatDelayInMins = (hint : Int)) ∧
    (resultOf u = WriteResult.err →
      (s.set_active_in_title resultOf).1.m_heartBeatDelayInMins
        = s_defaultHeartBeatDelayInMins) := by
  have hspec :=
    presence_writer.set_active_in_title_spec resultOf s hguard ids u hsnap
  constructor
  · intro hint hok
    rw [hspec.2.1, hok]
    rfl
  · intro herr
    rw [hspec.2.1, herr]
    rfl

/-- Witness for C3: with users 0 and 1 registered and every write returning
success with hint 7, the countdown after the flush is 7. -/
theorem C3_interval_from_last_result_witness :
    ((runOps [Op.register 0, Op.register 1]).set_active_in_title
        (fun _ => WriteResult.ok 7)).1.m_heartBeatDelayInMins = (7 : Int) :=
  (C3_interval_from_last_result (fun _ => WriteResult.ok 7)
    (runOps [Op.register 0, Op.register 1]) [0] 1 (by decide) (by decide)).1
    7 rfl

/-- C5: a flush cycle that begins (the guard compare-exchange succeeds)
always ends with the guard false again, whatever the per-user outcomes are:
the continuation stores false unconditionally, so no result value can leave
the writer permanently in flight.  The non-empty table hypothesis holds at
every actual trigger (the timer is alive only while users are registered,
`runOps_inv`). -/
theorem C5_flush_begin_matched_with_end (resultOf : UserId → WriteResult)
    (s : presence_writer)
    (hbegin : (s.try_begin_flush).1 = true)
    (husers : s.m_presenceServices ≠ []) :
    (s.set_active_in_title resultOf).1.m_isCallInProgress = false := by
  have hguard : s.m_isCallInProgress = false := by
    by_cases hc : s.m_isCallInProgress
    · simp [presence_writer.try_begin_flush, hc] at hbegin
    · simp at hc
      exact hc
  rcases List.eq_nil_or_concat s.m_presenceServices with hnil | ⟨ids, u, hsnap⟩
  · exact absurd hnil husers
  · rw [List.concat_eq_append] at hsnap
    exact
      (presence_writer.set_active_in_title_spec resultOf s hguard ids u hsnap).1

/-- Witness for C5: one registered user whose write errors; the guard is
released. -/
theorem C5_flush_begin_matched_with_end_witness :
    ((runOps [Op.register 0]).set_active_in_title
        (fun _ => WriteResult.err)).1.m_isCallInProgress = false :=
  C5_flush_begin_matched_with_end (fun _ => WriteResult.err)
    (runOps [Op.register 0]) (by decide) (by decide)

/-- C7: registering the same user twice is idempotent: the second call
returns `already_present`, leaves the table unchanged, and the table holds
exactly one entry for that user after either call. -/
theorem C7_register_idempotent (s : presence_writer) (id : UserId)
    (hnodup : s.m_presenceServices.Nodup) :
    ((s.start_writer id).1.start_writer id).2.1
        = RegisterResult.already_present ∧
    ((s.start_writer id).1.start_writer id).1.m_presenceServices
        = (s.start_writer id).1.m_presenceServices ∧
    (s.start_writer id).1.m_presenceServices.count id = 1 ∧
    ((s.start_writer id).1.start_writer id).1.m_presenceServices.count id
        = 1 := by
  by_cases hmem : id ∈ s.m_presenceServices
  · have hcount := List.count_eq_one_of_mem hnodup hmem
    by_cases hw : s.m_writerInProgress <;>
      simp [presence_writer.start_writer, hmem, hw, hcount]
  · have hcount := List.count_eq_zero_of_not_mem hmem
    by_cases hw : s.m_writerInProgress <;>
      simp [presence_writer.start_writer, hmem, hw, hcount,
        List.count_append]

/-- Witness for C7: registering user 0 twice on a fresh writer. -/
theorem C7_register_idempotent_witness :
    ((initWriter.start_writer 0).1.start_writer 0).2.1
      = RegisterResult.already_present :=
  (C7_register_idempotent initWriter 0 (by decide)).1

/-- C8: a timer tick first decrements the countdown; if the decremented
countdown is still positive the tick changes nothing else (same state but
for the countdown, no write issued), and otherwise the tick is exactly the
flush executor run on the decremented state. -/
theorem C8_tick_decrements_then_flushes (resultOf : UserId → WriteResult)
    (s : presence_writer) :
    (s.m_heartBeatDelayInMins - 1 > 0 →
      s.handle_timer_trigger resultOf =
        ({ s with m_heartBeatDelayInMins := s.m_heartBeatDelayInMins - 1 },
          [])) ∧
    (s.m_heartBeatDelayInMins - 1 ≤ 0 →
      s.handle_timer_trigger resultOf =
        presence_writer.set_active_in_title resultOf
          { s with m_heartBeatDelayInMins := s.m_heartBeatDelayInMins - 1 }) := by
  constructor
  · intro hpos
    simp [presence_writer.handle_timer_trigger, hpos]
  · intro hnp
    have hneg : ¬(s.m_heartBeatDelayInMins - 1 > 0) := by omega
    simp [presence_writer.handle_timer_trigger, hneg]

/-- C2 (code bug evidence): register user 0, register user 1, then
deregister user 0 — NOT the last user.  The claim (and the spec's lifecycle
symmetry) say the timer must stay untouched; the code's `stop_writer`
cancels the timer on every deregistration made while the writer is in
progress (the `m_timer->Cancel()` / `m_timerComplete = true` block at lines
152-158 sits outside the `m_presenceServices.empty()` check), leaving user 1
registered, the writer flagged in progress, and the timer dead. -/
theorem C2_nonlast_deregistration_kills_timer :
    (runOps [Op.register 0, Op.register 1,
        Op.deregister 0 false]).m_writerInProgress = true ∧
    (runOps [Op.register 0, Op.register 1,
        Op.deregister 0 false]).m_presenceServices = [1] ∧
    (runOps [Op.register 0, Op.register 1,
        Op.deregister 0 false]).m_timerAlive = false := by
  decide

/-- Predicate of claim C4 on a continuation trace: every guard-clearing step
happens only after some countdown update has already happened. -/
def guardClearedOnlyAfterUpdate
    (acts : List presence_writer.FlushAction) : Prop :=
  ∀ i : Nat, acts.get? i = some presence_writer.FlushAction.clearGuard →
    ∃ j : Nat, j < i ∧ ∃ v : Int,
      acts.get? j = some (presence_writer.FlushAction.setCountdown v)

/-- Amended ordering on a continuation trace: every countdown update is
preceded by the guard-clearing step. -/
def guardClearedBeforeUpdate
    (acts : List presence_writer.FlushAction) : Prop :=
  ∀ (i : Nat) (v : Int),
    acts.get? i = some (presence_writer.FlushAction.setCountdown v) →
    ∃ j : Nat, j < i ∧
      acts.get? j = some presence_writer.FlushAction.clearGuard

/-- Counterexample to C4: in the continuation for a single errored write,
the guard-clearing step (`m_isCallInProgress.store(false)`, line 204) is the
FIRST action of the trace, before the interval update (lines 207-219) — it
is not preceded by any countdown update. -/
theorem C4_counterexample :
    ¬ guardClearedOnlyAfterUpdate
        (presence_writer.continuationActions [WriteResult.err]) := by
  intro hclaim
  obtain ⟨j, hj, -⟩ := hclaim 0 rfl
  omega

/-- C4 amended: in every flush-cycle continuation the guard is released
FIRST and the interval update comes after it — the reverse of the claimed
order; consequently there is an instant where the guard reads false while
the countdown does not yet reflect the completed cycle. -/
theorem C4_amended_guard_released_before_update
    (results : List WriteResult) :
    guardClearedBeforeUpdate
      (presence_writer.continuationActions results) := by
  unfold guardClearedBeforeUpdate presence_writer.continuationActions
  cases hl : results.getLast? with
  | none =>
      intro i v h
      cases i with
      | zero => simp at h
      | succ n => simp at h
  | some r =>
      intro i v h
      cases i with
      | zero => simp at h
      | succ n =>
          cases n with
          | zero => exact ⟨0, by omega, rfl⟩
          | succ m => simp at h

/-- C6: while the writer is running (which a registered user implies on
every reachable state), deregistering a registered user issues exactly one
best-effort inactive write for that user, and the entry is removed whether
or not that write throws — the resulting state does not depend on the
write's fate. -/
theorem C6_deregister_single_inactive_write (s : presence_writer)
    (id : UserId) (writeFails : Bool)
    (hinv : WriterInv s) (hmem : id ∈ s.m_presenceServices) :
    (s.stop_writer id writeFails).2
        = [Event.setInactiveWrite id writeFails] ∧
    id ∉ (s.stop_writer id writeFails).1.m_presenceServices ∧
    (∀ g : Bool, (s.stop_writer id writeFails).1 = (s.stop_writer id g).1) := by
  obtain ⟨hrun, htimer, hnodup⟩ := hinv
  have hw : s.m_writerInProgress = true := by
    apply hrun.mpr
    intro hnil
    rw [hnil] at hmem
    exact absurd hmem (List.not_mem_nil id)
  refine ⟨?_, ?_, ?_⟩
  · simp [presence_writer.stop_writer, presence_writer.set_inactive_in_title,
      hw, hmem]
  · by_cases hemp : (s.m_presenceServices.erase id).isEmpty <;>
      simp [presence_writer.stop_writer, hw, hmem, hemp,
        presence_writer.set_inactive_in_title, hnodup.not_mem_erase]
  · intro g
    by_cases hemp : (s.m_presenceServices.erase id).isEmpty <;>
      simp [presence_writer.stop_writer, hw, hmem, hemp,
        presence_writer.set_inactive_in_title]

/-- Witness for C6: deregistering user 0 of a two-user writer with the
inactive write throwing; exactly one inactive-write attempt is recorded. -/
theorem C6_deregister_single_inactive_write_witness :
    ((runOps [Op.register 0, Op.register 1]).stop_writer 0 true).2
        = [Event.setInactiveWrite 0 true] :=
  (C6_deregister_single_inactive_write
    (runOps [Op.register 0, Op.register 1]) 0 true
    (runOps_inv [Op.register 0, Op.register 1]) (by decide)).1

/-- C9: on every state reachable by register/deregister/tick sequences from
the fresh writer, the running flag is set iff the registration table is
non-empty, and each single register or deregister preserves that
biconditional. -/
theorem C9_running_iff_table_nonempty :
    (∀ ops : List Op, runningIffNonempty (runOps ops)) ∧
    (∀ s : presence_writer, runningIffNonempty s →
      (∀ id : UserId, runningIffNonempty (s.start_writer id).1) ∧
      (∀ (id : UserId) (f : Bool),
        runningIffNonempty (s.stop_writer id f).1)) := by
  refine ⟨fun ops => (runOps_inv ops).1, fun s hs => ⟨?_, ?_⟩⟩
  · intro id
    exact start_writer_bicond id s hs
  · intro id f
    exact stop_writer_bicond id f s hs

/-- C10: the countdown is zero right after construction and again after the
deregistration that empties the table; registration itself performs no
presence write; and the very first timer tick after the first registration
decrements the countdown to -1 and immediately attempts a flush for the
registered user. -/
theorem C10_zero_countdown_first_tick_flushes :
    initWriter.m_heartBeatDelayInMins = 0 ∧
    (∀ (s : presence_writer) (id : UserId) (f : Bool),
      runningIffNonempty s → id ∈ s.m_presenceServices →
      (s.stop_writer id f).1.m_presenceServices = [] →
      (s.stop_writer id f).1.m_heartBeatDelayInMins = 0) ∧
    (∀ (s : presence_writer) (id : UserId),
      (s.start_writer id).2.2 = []) ∧
    (∀ (resultOf : UserId → WriteResult) (id : UserId),
      (initWriter.start_writer id).1.m_heartBeatDelayInMins = 0 ∧
      ((initWriter.start_writer id).1.handle_timer_trigger resultOf).2
        = [Event.setActiveWrite id]) := by
  refine ⟨rfl, ?_, ?_, ?_⟩
  · intro s id f hrun hmem hempty
    have hw : s.m_writerInProgress = true := by
      apply hrun.mpr
      intro hnil
      rw [hnil] at hmem
      exact absurd hmem (List.not_mem_nil id)
    by_cases hemp : (s.m_presenceServices.erase id).isEmpty
    · simp [presence_writer.stop_writer, hw, hmem, hemp] at hempty ⊢
    · simp [presence_writer.stop_writer, hw, hmem, hemp,
        List.isEmpty_iff] at hempty ⊢
      exact absurd hempty (by simpa [List.isEmpty_iff] using hemp)
  · intro s id
    by_cases hmem : id ∈ s.m_presenceServices <;>
      by_cases hw : s.m_writerInProgress <;>
      simp [presence_writer.start_writer, hmem, hw]
  · intro resultOf id
    have hstart : (initWriter.start_writer id).1 =
        { m_writerInProgress := true, m_heartBeatDelayInMins := 0,
          m_isCallInProgress := false, m_presenceServices := [id],
          m_timerAlive := true } := by
      simp [presence_writer.start_writer, initWriter]
    have hspec := presence_writer.set_active_in_title_spec resultOf
      { m_writerInProgress := true, m_heartBeatDelayInMins := -1,
        m_isCallInProgress := false, m_presenceServices := [id],
        m_timerAlive := true } rfl [] id rfl
    constructor
    · rw [hstart]
    · rw [hstart]
      show ((presence_writer.handle_timer_trigger resultOf _).2 = _)
      unfold presence_writer.handle_timer_trigger
      simp only []
      norm_num
      simpa using hspec.2.2
